import Mathlib

set_option maxRecDepth 4000

namespace Sec44

/-!  Shallow embedding of the sec44 endpoint-telemetry platform
     (agent spool / batch splitter, server ingest store, insight engine,
     canonical JSON + HMAC signing), with theorems checking the
     natural-language specification against the code.  -/

/-! ## Python-style rounding (round half to even) over ℚ

The source computes `round(x)` / `round(x, 4)` on Python floats; the
embedding carries the arithmetic over ℚ with Python's banker's rounding. -/

def pyRound (q : ℚ) : ℤ :=
  if q - (⌊q⌋ : ℚ) < 1/2 then ⌊q⌋
  else if 1/2 < q - (⌊q⌋ : ℚ) then ⌊q⌋ + 1
  else if ⌊q⌋ % 2 = 0 then ⌊q⌋ else ⌊q⌋ + 1

/-! ## Agent spool backoff (src/agent/spool.py, `Spooler.mark_failed`) -/

structure SpoolRow where
  batch_id : Nat
  created_at : Int
  retry_count : Nat
  next_attempt_at : Int
deriving DecidableEq, Repr

/-- `min(300, max(2, 2**retry_count))` from `Spooler.mark_failed`. -/
def backoff_seconds (retry_count : Nat) : Nat :=
  min 300 (max 2 (2 ^ retry_count))

/-- `Spooler.mark_failed`: sets `next_attempt_at = now + backoff(retry)` and
executes `retry_count = retry_count + 1` on the matching row. -/
def mark_failed (rows : List SpoolRow) (batch_id : Nat) (retry_count : Nat)
    (now : Int) : List SpoolRow :=
  rows.map fun row =>
    if row.batch_id = batch_id then
      { row with
        retry_count := row.retry_count + 1,
        next_attempt_at := now + (backoff_seconds retry_count : Int) }
    else row

/-! ## Baseline (src/core/baseline.py) -/

inductive BaselineClassification
  | normal
  | elevated
  | anomalous
deriving DecidableEq, Repr

/-- `classify_ratio`: `< 1.5` normal, `< 3.0` elevated, else anomalous. -/
def classify_ratio (ratio : ℚ) : BaselineClassification :=
  if ratio < 3/2 then .normal
  else if ratio < 3 then .elevated
  else .anomalous

/-- `compute_median` via `statistics.median`: 0 on empty input, middle element
of the sorted list for odd length, mean of the two middle elements for even. -/
def compute_median (values : List ℚ) : ℚ :=
  if values = [] then 0
  else
    let sorted := values.insertionSort (· ≤ ·)
    let n := values.length
    if n % 2 = 1 then sorted.getD (n / 2) 0
    else (sorted.getD (n / 2 - 1) 0 + sorted.getD (n / 2) 0) / 2

structure BaselineMetric where
  today : ℤ
  baseline : ℚ
  ratio : ℚ
  classification : BaselineClassification
deriving DecidableEq, Repr

/-- One signal of `compute_baseline`: `baseline = median(history)`,
`ratio = today / max(1.0, baseline)`, stored ratio rounded to 4 decimal
places, classification from the unrounded ratio. -/
def compute_baseline_metric (today : ℤ) (history : List ℤ) : BaselineMetric :=
  let baseline := compute_median (history.map (fun n => (n : ℚ)))
  let ratio := (today : ℚ) / max 1 baseline
  { today := today
    baseline := baseline
    ratio := (pyRound (ratio * 10000) : ℚ) / 10000
    classification := classify_ratio ratio }

/-! ## Risk score (src/core/engine.py, `build_insight_bundle` lines 192-199) -/

inductive Severity
  | INFO
  | WARN
  | HIGH
deriving DecidableEq, Repr

/-- Default severity weights `{INFO: 1, WARN: 3, HIGH: 8}`. -/
def severityWeight : Severity → Nat
  | .INFO => 1
  | .WARN => 3
  | .HIGH => 8

/-- An event as the risk-score computation sees it: its UTC calendar day
(`ts.date()` bucketing) and its severity. -/
structure REvent where
  day : ℤ
  severity : Severity
deriving DecidableEq, Repr

/-- Weighted severity sum of the events falling on day `d`. -/
def rawWeightedSum (events : List REvent) (d : ℤ) : Nat :=
  ((events.filter (fun e => e.day = d)).map (fun e => severityWeight e.severity)).sum

/-- The distinct days present in the input (`grouped.keys()`). -/
def eventDays (events : List REvent) : List ℤ :=
  (events.map (·.day)).dedup

/-- `target_day = max(grouped.keys())`. -/
def targetDay (events : List REvent) : ℤ :=
  ((events.map (·.day)).max?).getD 0

/-- `history_days = sorted(day for day in grouped if day < target_day)`. -/
def historyDays (events : List REvent) : List ℤ :=
  ((eventDays events).filter (fun d => d < targetDay events)).insertionSort (· ≤ ·)

/-- `prior_30 = history_days[-30:]`. -/
def prior30 (events : List REvent) : List ℤ :=
  (historyDays events).drop ((historyDays events).length - 30)

/-- `raw_today`: weighted severity sum of the target day's events. -/
def rawToday (events : List REvent) : Nat :=
  rawWeightedSum events (targetDay events)

/-- `raw_30`: daily weighted sums over the up-to-30 prior days present. -/
def raw30 (events : List REvent) : List Nat :=
  (prior30 events).map (rawWeightedSum events)

/-- Risk score exactly as `build_insight_bundle` computes it:
`rolling_max = max(raw_30 + [raw_today]) if (raw_30 or raw_today > 0) else 30`,
`score = int(min(100, round(raw_today / max(rolling_max, 30) * 100)))`. -/
def risk_score (events : List REvent) : ℤ :=
  let rt := rawToday events
  let r30 := raw30 events
  let rollingMax := if r30 ≠ [] ∨ 0 < rt then (r30 ++ [rt]).foldl max 0 else 30
  let denom := max rollingMax 30
  min 100 (pyRound ((rt : ℚ) / (denom : ℚ) * 100))

/-- The spec's formula: `min(100, round(100 * raw_today / max(30, max_30d)))`
where `max_30d` is the maximum daily raw sum over the prior days present
and the target day itself. -/
def risk_score_spec (events : List REvent) : ℤ :=
  let rt := rawToday events
  let maxAll := (raw30 events ++ [rt]).foldl max 0
  min 100 (pyRound ((100 * rt : ℚ) / (max 30 maxAll : ℚ)))

/-! ## Server store (src/server/db.py, `ServerDatabase.ingest_request`)

The SQLAlchemy session in `ServerDatabase.session` commits on normal exit
and rolls back on any exception; `ingest_request` runs entirely inside one
such session.  The embedding makes this explicit: the transactional body is
a function returning `Except`, and the outer wrapper restores the original
state on error.  A `persistFail` flag models a storage error raised while
persisting the device row or an event row (the only fallible step here). -/

structure OrgRow where
  org_id : String
  is_active : Bool
deriving DecidableEq, Repr

structure NonceRow where
  org_id : String
  device_id : String
  nonce : String
  seen_at : Int
  expires_at : Int
deriving DecidableEq, Repr

structure DeviceRow where
  org_id : String
  device_id : String
  platform : String
  agent_version : String
  first_seen_at : Int
  last_seen_at : Int
deriving DecidableEq, Repr

structure EventRow where
  org_id : String
  device_id : String
  ts : Int
  source : String
  severity : String
  platform : String
  title : String
deriving DecidableEq, Repr

/-- An event envelope as `ingest_request` consumes it. -/
structure IngestEvent where
  ts : Int
  source : String
  severity : String
  platform : String
  title : String
deriving DecidableEq, Repr

structure IngestReq where
  org_id : String
  device_id : String
  agent_version : String
  nonce : String
  events : List IngestEvent
deriving DecidableEq, Repr

structure DbState where
  orgs : List OrgRow
  nonces : List NonceRow
  devices : List DeviceRow
  events : List EventRow
deriving DecidableEq, Repr

def findOrg (st : DbState) (oid : String) : Option OrgRow :=
  st.orgs.find? (fun o => o.org_id == oid)

/-- `delete(Nonce).where(Nonce.expires_at < seen_at)`: lazy GC of expired
nonce rows at the start of the ingest transaction. -/
def gcNonces (st : DbState) (seen_at : Int) : DbState :=
  { st with nonces := st.nonces.filter (fun n => !(n.expires_at < seen_at)) }

def nonceMatches (req : IngestReq) (n : NonceRow) : Bool :=
  n.org_id == req.org_id && n.device_id == req.device_id && n.nonce == req.nonce

/-- The replay lookup over the (already GC'd) nonce table. -/
def replayPresent (st : DbState) (req : IngestReq) : Bool :=
  st.nonces.any (nonceMatches req)

def insertNonce (st : DbState) (req : IngestReq) (seen_at expires_at : Int) : DbState :=
  { st with nonces := st.nonces ++
      [{ org_id := req.org_id, device_id := req.device_id, nonce := req.nonce,
         seen_at := seen_at, expires_at := expires_at }] }

/-- `request.events[0].platform.value if request.events else "unknown"`. -/
def inferredPlatform (req : IngestReq) : String :=
  match req.events with
  | [] => "unknown"
  | e :: _ => e.platform

def deviceMatches (req : IngestReq) (d : DeviceRow) : Bool :=
  d.org_id == req.org_id && d.device_id == req.device_id

/-- Device upsert: create the row with `first_seen_at = last_seen_at = seen_at`
when absent; otherwise overwrite platform, agent_version and `last_seen_at`
only (the source does not touch `first_seen_at` of an existing row). -/
def upsertDevice (st : DbState) (req : IngestReq) (seen_at : Int) : DbState :=
  match st.devices.find? (deviceMatches req) with
  | none =>
      { st with devices := st.devices ++
          [{ org_id := req.org_id, device_id := req.device_id,
             platform := inferredPlatform req, agent_version := req.agent_version,
             first_seen_at := seen_at, last_seen_at := seen_at }] }
  | some _ =>
      { st with devices := st.devices.map (fun d =>
          if deviceMatches req d then
            { d with platform := inferredPlatform req,
                     agent_version := req.agent_version,
                     last_seen_at := seen_at }
          else d) }

def eventToRow (req : IngestReq) (e : IngestEvent) : EventRow :=
  { org_id := req.org_id, device_id := req.device_id, ts := e.ts,
    source := e.source, severity := e.severity, platform := e.platform,
    title := e.title }

def appendEvents (st : DbState) (req : IngestReq) : DbState :=
  { st with events := st.events ++ req.events.map (eventToRow req) }

/-- The body of `ServerDatabase.ingest_request`, run inside one session. -/
def ingest_core (persistFail : Bool) (req : IngestReq) (seen_at window_seconds : Int)
    (st : DbState) : Except Unit (Int × DbState) :=
  match findOrg st req.org_id with
  | none => .ok (-1, st)
  | some org =>
    if !org.is_active then .ok (-1, st)
    else
      let st1 := gcNonces st seen_at
      if replayPresent st1 req then .ok (0, st1)
      else
        let st2 := insertNonce st1 req seen_at (seen_at + window_seconds)
        if persistFail then .error ()
        else
          let st3 := upsertDevice st2 req seen_at
          let st4 := appendEvents st3 req
          .ok ((req.events.length : Int), st4)

/-- `ingest_request` with the session's commit/rollback semantics: on success
the new state commits; on an exception the state is rolled back unchanged
and the error propagates. -/
def ingest_request (persistFail : Bool) (req : IngestReq) (seen_at window_seconds : Int)
    (st : DbState) : Except Unit Int × DbState :=
  match ingest_core persistFail req seen_at window_seconds st with
  | .ok (r, st2) => (.ok r, st2)
  | .error e => (.error e, st)

/-- HTTP status chosen by the ingest endpoint from the `ingest_request`
result (src/server/ingest.py lines 104-116). -/
def ingest_status (accepted : Int) : Nat :=
  if accepted = -1 then 401
  else if accepted = 0 then 409
  else 200

/-! ## Canonical JSON (src/shared/serialization.py)

`canonical_json_bytes` is `json.dumps(payload, sort_keys=True,
separators=(",", ":"), ensure_ascii=True).encode("utf-8")`.  JSON values
are embedded as `JVal` (numbers restricted to integers; the repository's
wire payloads carry no floats). -/

inductive JVal
  | null
  | b (x : Bool)
  | i (n : Int)
  | s (str : String)
  | arr (items : List JVal)
  | obj (fields : List (String × JVal))
deriving Repr

mutual
def jvalDecEq : (a b : JVal) → Decidable (a = b)
  | .null, .null => isTrue rfl
  | .null, .b _ => isFalse (fun h => nomatch h)
  | .null, .i _ => isFalse (fun h => nomatch h)
  | .null, .s _ => isFalse (fun h => nomatch h)
  | .null, .arr _ => isFalse (fun h => nomatch h)
  | .null, .obj _ => isFalse (fun h => nomatch h)
  | .b _, .null => isFalse (fun h => nomatch h)
  | .b x, .b y =>
    if h : x = y then isTrue (by rw [h])
    else isFalse (fun hh => by cases hh; exact h rfl)
  | .b _, .i _ => isFalse (fun h => nomatch h)
  | .b _, .s _ => isFalse (fun h => nomatch h)
  | .b _, .arr _ => isFalse (fun h => nomatch h)
  | .b _, .obj _ => isFalse (fun h => nomatch h)
  | .i _, .null => isFalse (fun h => nomatch h)
  | .i _, .b _ => isFalse (fun h => nomatch h)
  | .i x, .i y =>
    if h : x = y then isTrue (by rw [h])
    else isFalse (fun hh => by cases hh; exact h rfl)
  | .i _, .s _ => isFalse (fun h => nomatch h)
  | .i _, .arr _ => isFalse (fun h => nomatch h)
  | .i _, .obj _ => isFalse (fun h => nomatch h)
  | .s _, .null => isFalse (fun h => nomatch h)
  | .s _, .b _ => isFalse (fun h => nomatch h)
  | .s _, .i _ => isFalse (fun h => nomatch h)
  | .s x, .s y =>
    if h : x = y then isTrue (by rw [h])
    else isFalse (fun hh => by cases hh; exact h rfl)
  | .s _, .arr _ => isFalse (fun h => nomatch h)
  | .s _, .obj _ => isFalse (fun h => nomatch h)
  | .arr _, .null => isFalse (fun h => nomatch h)
  | .arr _, .b _ => isFalse (fun h => nomatch h)
  | .arr _, .i _ => isFalse (fun h => nomatch h)
  | .arr _, .s _ => isFalse (fun h => nomatch h)
  | .arr xs, .arr ys =>
    match jvalListDecEq xs ys with
    | isTrue h => isTrue (by rw [h])
    | isFalse h => isFalse (fun hh => by cases hh; exact h rfl)
  | .arr _, .obj _ => isFalse (fun h => nomatch h)
  | .obj _, .null => isFalse (fun h => nomatch h)
  | .obj _, .b _ => isFalse (fun h => nomatch h)
  | .obj _, .i _ => isFalse (fun h => nomatch h)
  | .obj _, .s _ => isFalse (fun h => nomatch h)
  | .obj _, .arr _ => isFalse (fun h => nomatch h)
  | .obj xs, .obj ys =>
    match jvalFieldsDecEq xs ys with
    | isTrue h => isTrue (by rw [h])
    | isFalse h => isFalse (fun hh => by cases hh; exact h rfl)
def jvalListDecEq : (xs ys : List JVal) → Decidable (xs = ys)
  | [], [] => isTrue rfl
  | [], _ :: _ => isFalse (fun h => nomatch h)
  | _ :: _, [] => isFalse (fun h => nomatch h)
  | x :: xs, y :: ys =>
    match jvalDecEq x y with
    | isFalse h => isFalse (fun hh => by cases hh; exact h rfl)
    | isTrue h1 =>
      match jvalListDecEq xs ys with
      | isTrue h2 => isTrue (by rw [h1, h2])
      | isFalse h2 => isFalse (fun hh => by cases hh; exact h2 rfl)
def jvalFieldsDecEq : (xs ys : List (String × JVal)) → Decidable (xs = ys)
  | [], [] => isTrue rfl
  | [], _ :: _ => isFalse (fun h => nomatch h)
  | _ :: _, [] => isFalse (fun h => nomatch h)
  | (k1, v1) :: xs, (k2, v2) :: ys =>
    if hk : k1 = k2 then
      match jvalDecEq v1 v2 with
      | isFalse h => isFalse (fun hh => by cases hh; exact h rfl)
      | isTrue h1 =>
        match jvalFieldsDecEq xs ys with
        | isTrue h2 => isTrue (by rw [hk, h1, h2])
        | isFalse h2 => isFalse (fun hh => by cases hh; exact h2 rfl)
    else isFalse (fun hh => by cases hh; exact hk rfl)
end

instance : DecidableEq JVal := jvalDecEq

def natToDecAux : Nat → Nat → String
  | 0, _ => ""
  | fuel + 1, n =>
    if n < 10 then String.singleton (Char.ofNat (48 + n))
    else natToDecAux fuel (n / 10) ++ String.singleton (Char.ofNat (48 + n % 10))

def natToDecString (n : Nat) : String := natToDecAux (n + 1) n

def intToDecString (i : Int) : String :=
  if i < 0 then "-" ++ natToDecString i.natAbs else natToDecString i.toNat

/-- Lower-case hex digit of `n % 16`. -/
def hexDigitChar (n : Nat) : Char :=
  if n % 16 < 10 then Char.ofNat (48 + n % 16) else Char.ofNat (87 + n % 16)

def hex4 (n : Nat) : String :=
  String.mk [hexDigitChar (n / 4096), hexDigitChar (n / 256), hexDigitChar (n / 16),
    hexDigitChar n]

/-- `json.dumps` `ensure_ascii` escaping: short escapes for the usual control
characters, everything outside `32..126` as `\uXXXX` (astral characters
as surrogate pairs). -/
def escapeChar (c : Char) : String :=
  if c = '"' then "\\\""
  else if c = '\\' then "\\\\"
  else if c = '\n' then "\\n"
  else if c = '\r' then "\\r"
  else if c = '\t' then "\\t"
  else if c.toNat = 8 then "\\b"
  else if c.toNat = 12 then "\\f"
  else if 32 ≤ c.toNat ∧ c.toNat ≤ 126 then String.singleton c
  else if c.toNat < 65536 then "\\u" ++ hex4 c.toNat
  else
    "\\u" ++ hex4 (55296 + (c.toNat - 65536) / 1024) ++
    "\\u" ++ hex4 (56320 + (c.toNat - 65536) % 1024)

def encodeJString (s : String) : String :=
  "\"" ++ String.join (s.data.map escapeChar) ++ "\""

/-- Python string `<=`, i.e. lexicographic comparison by code point. -/
def charsLe : List Char → List Char → Bool
  | [], _ => true
  | _ :: _, [] => false
  | a :: as, b :: bs =>
    if a.toNat < b.toNat then true
    else if b.toNat < a.toNat then false
    else charsLe as bs

def strLeb (a b : String) : Bool := charsLe a.data b.data

def insertByKey (kv : String × JVal) :
    List (String × JVal) → List (String × JVal)
  | [] => [kv]
  | x :: xs => if strLeb kv.1 x.1 then kv :: x :: xs else x :: insertByKey kv xs

/-- `sort_keys=True`: object keys sorted by code point at every depth. -/
def sortFieldsByKey : List (String × JVal) → List (String × JVal)
  | [] => []
  | kv :: rest => insertByKey kv (sortFieldsByKey rest)

mutual
def canonJVal : JVal → JVal
  | .null => .null
  | .b x => .b x
  | .i n => .i n
  | .s str => .s str
  | .arr items => .arr (canonItems items)
  | .obj fields => .obj (sortFieldsByKey (canonFields fields))
def canonItems : List JVal → List JVal
  | [] => []
  | v :: rest => canonJVal v :: canonItems rest
def canonFields : List (String × JVal) → List (String × JVal)
  | [] => []
  | kv :: rest => (kv.1, canonJVal kv.2) :: canonFields rest
end

mutual
def encodeJVal : JVal → String
  | .null => "null"
  | .b true => "true"
  | .b false => "false"
  | .i n => intToDecString n
  | .s str => encodeJString str
  | .arr items => "[" ++ encodeItems items ++ "]"
  | .obj fields => "\x7b" ++ encodeFields fields ++ "\x7d"
def encodeItems : List JVal → String
  | [] => ""
  | [v] => encodeJVal v
  | v :: rest => encodeJVal v ++ "," ++ encodeItems rest
def encodeFields : List (String × JVal) → String
  | [] => ""
  | [kv] => encodeJString kv.1 ++ ":" ++ encodeJVal kv.2
  | kv :: rest => encodeJString kv.1 ++ ":" ++ encodeJVal kv.2 ++ "," ++ encodeFields rest
end

def canonical_json_text (v : JVal) : String := encodeJVal (canonJVal v)

/-- UTF-8 encoding of one character. -/
def charUtf8 (c : Char) : List Nat :=
  let n := c.toNat
  if n < 128 then [n]
  else if n < 2048 then [192 + n / 64, 128 + n % 64]
  else if n < 65536 then [224 + n / 4096, 128 + n / 64 % 64, 128 + n % 64]
  else [240 + n / 262144, 128 + n / 4096 % 64, 128 + n / 64 % 64, 128 + n % 64]

def utf8Bytes (s : String) : List Nat := (s.data.map charUtf8).flatten

def canonical_json_bytes (v : JVal) : List Nat := utf8Bytes (canonical_json_text v)

/-! ## SHA-256 and HMAC-SHA256 (models of `hashlib.sha256` / `hmac.new`)

Executable reference implementation over byte lists (`Nat` values < 256),
with 32-bit words as `Nat` reduced `% 2^32`. -/

def rotr32 (n x : Nat) : Nat := ((x >>> n) ||| (x <<< (32 - n))) % 2 ^ 32

def bigSigma0 (x : Nat) : Nat := rotr32 2 x ^^^ rotr32 13 x ^^^ rotr32 22 x
def bigSigma1 (x : Nat) : Nat := rotr32 6 x ^^^ rotr32 11 x ^^^ rotr32 25 x
def smallSigma0 (x : Nat) : Nat := rotr32 7 x ^^^ rotr32 18 x ^^^ (x >>> 3)
def smallSigma1 (x : Nat) : Nat := rotr32 17 x ^^^ rotr32 19 x ^^^ (x >>> 10)
def chFn (x y z : Nat) : Nat := (x &&& y) ^^^ ((x ^^^ 4294967295) &&& z)
def majFn (x y z : Nat) : Nat := (x &&& y) ^^^ (x &&& z) ^^^ (y &&& z)

def sha256K : List Nat :=
  [1116352408, 1899447441, 3049323471, 3921009573, 961987163, 1508970993,
   2453635748, 2870763221, 3624381080, 310598401, 607225278, 1426881987,
   1925078388, 2162078206, 2614888103, 3248222580, 3835390401, 4022224774,
   264347078, 604807628, 770255983, 1249150122, 1555081692, 1996064986,
   2554220882, 2821834349, 2952996808, 3210313671, 3336571891, 3584528711,
   113926993, 338241895, 666307205, 773529912, 1294757372, 1396182291,
   1695183700, 1986661051, 2177026350, 2456956037, 2730485921, 2820302411,
   3259730800, 3345764771, 3516065817, 3600352804, 4094571909, 275423344,
   430227734, 506948616, 659060556, 883997877, 958139571, 1322822218,
   1537002063, 1747873779, 1955562222, 2024104815, 2227730452, 2361852424,
   2428436474, 2756734187, 3204031479, 3329325298]

structure Sha256State where
  a : Nat
  b : Nat
  c : Nat
  d : Nat
  e : Nat
  f : Nat
  g : Nat
  h : Nat
deriving DecidableEq, Repr

def sha256Init : Sha256State :=
  ⟨1779033703, 3144134277, 1013904242, 2773480762,
   1359893119, 2600822924, 528734635, 1541459225⟩

def sha256Round (s : Sha256State) (k w : Nat) : Sha256State :=
  let t1 := (s.h + bigSigma1 s.e + chFn s.e s.f s.g + k + w) % 2 ^ 32
  let t2 := (bigSigma0 s.a + majFn s.a s.b s.c) % 2 ^ 32
  { a := (t1 + t2) % 2 ^ 32, b := s.a, c := s.b, d := s.c,
    e := (s.d + t1) % 2 ^ 32, f := s.e, g := s.f, h := s.g }

/-- Extend a 16-word block to the 64-word message schedule. -/
def scheduleW (block : List Nat) : List Nat :=
  (List.range 48).foldl
    (fun w _ =>
      let t := w.length
      w ++ [(smallSigma1 (w.getD (t - 2) 0) + w.getD (t - 7) 0 +
             smallSigma0 (w.getD (t - 15) 0) + w.getD (t - 16) 0) % 2 ^ 32])
    block

def sha256Compress (hv : Sha256State) (block : List Nat) : Sha256State :=
  let ws := scheduleW block
  let s := (sha256K.zip ws).foldl (fun s kw => sha256Round s kw.1 kw.2) hv
  { a := (hv.a + s.a) % 2 ^ 32, b := (hv.b + s.b) % 2 ^ 32,
    c := (hv.c + s.c) % 2 ^ 32, d := (hv.d + s.d) % 2 ^ 32,
    e := (hv.e + s.e) % 2 ^ 32, f := (hv.f + s.f) % 2 ^ 32,
    g := (hv.g + s.g) % 2 ^ 32, h := (hv.h + s.h) % 2 ^ 32 }

/-- Big-endian 4-byte grouping. -/
def bytesToWords : List Nat → List Nat
  | b0 :: b1 :: b2 :: b3 :: rest =>
      (b0 * 16777216 + b1 * 65536 + b2 * 256 + b3) :: bytesToWords rest
  | _ => []

def chunk64Aux : Nat → List Nat → List (List Nat)
  | 0, _ => []
  | fuel + 1, l => if l = [] then [] else l.take 64 :: chunk64Aux fuel (l.drop 64)

def chunk64 (l : List Nat) : List (List Nat) := chunk64Aux l.length l

def sha256Pad (msg : List Nat) : List Nat :=
  let len := msg.length
  let bitLen := len * 8
  msg ++ [128] ++ List.replicate ((119 - len % 64) % 64) 0 ++
    [(bitLen >>> 56) % 256, (bitLen >>> 48) % 256, (bitLen >>> 40) % 256,
     (bitLen >>> 32) % 256, (bitLen >>> 24) % 256, (bitLen >>> 16) % 256,
     (bitLen >>> 8) % 256, bitLen % 256]

def wordBytes (w : Nat) : List Nat :=
  [(w >>> 24) % 256, (w >>> 16) % 256, (w >>> 8) % 256, w % 256]

def sha256 (msg : List Nat) : List Nat :=
  let st := ((chunk64 (sha256Pad msg)).map bytesToWords).foldl sha256Compress sha256Init
  wordBytes st.a ++ wordBytes st.b ++ wordBytes st.c ++ wordBytes st.d ++
  wordBytes st.e ++ wordBytes st.f ++ wordBytes st.g ++ wordBytes st.h

def hmacSha256 (key msg : List Nat) : List Nat :=
  let k0 := if 64 < key.length then sha256 key else key
  let kPad := k0 ++ List.replicate (64 - k0.length) 0
  sha256 ((kPad.map (fun b => b ^^^ 92)) ++
    sha256 ((kPad.map (fun b => b ^^^ 54)) ++ msg))

def hexOfBytes (bytes : List Nat) : String :=
  String.mk ((bytes.map (fun b => [hexDigitChar (b / 16), hexDigitChar b])).flatten)

/-! ## Signing (src/shared/signing.py) -/

structure SignedHeaders where
  org : String
  device : String
  timestamp : String
  nonce : String
  signature : String
deriving DecidableEq, Repr, Inhabited

/-- `sign_request` on an already-parsed JSON body value: lower-hex
HMAC-SHA256 of the canonical encoding under the api key. -/
def sign_request (body : JVal) (api_key : String) : String :=
  hexOfBytes (hmacSha256 (utf8Bytes api_key) (canonical_json_bytes body))

def build_signed_headers (body : JVal) (api_key org_id device_id : String)
    (timestamp : Int) (nonce : String) : SignedHeaders :=
  { org := org_id, device := device_id, timestamp := intToDecString timestamp,
    nonce := nonce, signature := sign_request body api_key }

/-- How `verify_request` can fail: `missingHeader` models the
`SignatureError` raised for an empty signature/timestamp/nonce header;
`typeError` models the `TypeError` that `hmac.compare_digest` raises on
`str` arguments that are not ASCII-only; `badPayload` models exceptions
raised while decoding or parsing a byte body. -/
inductive VerifyError
  | missingHeader
  | typeError
  | badPayload
deriving DecidableEq, Repr

def strIsAscii (s : String) : Bool := s.data.all (fun c => c.toNat < 128)

/-- `hmac.compare_digest` on `str` arguments: raises `TypeError` unless both
strings are ASCII-only, otherwise comparison (the constant-time aspect is
modeled as plain equality). -/
def compare_digest (a b : String) : Except VerifyError Bool :=
  if strIsAscii a ∧ strIsAscii b then .ok (a == b) else .error .typeError

/-- `verify_request` on a JSON body value: `SignatureError` on a missing
signature/timestamp/nonce header, else `compare_digest` of the header
signature against the recomputed signature (which raises `TypeError` on a
non-ASCII signature). -/
def verify_request (body : JVal) (headers : SignedHeaders) (api_key : String) :
    Except VerifyError Bool :=
  if headers.signature = "" then .error .missingHeader
  else if headers.timestamp = "" then .error .missingHeader
  else if headers.nonce = "" then .error .missingHeader
  else compare_digest headers.signature (sign_request body api_key)

/-! ## JSON parsing (model of the stdlib `json.loads` used by
`shared.signing._body_payload`)

Fuel-based recursive-descent parser over decoded characters, restricted to
the JSON fragment the repository exchanges: numbers are integers (no
floats: a number followed by `.`/`e`/`E` is rejected), `\uXXXX` escapes
accept both hex cases, surrogate pairs are combined. -/

def isWsChar (c : Char) : Bool :=
  c = ' ' ∨ c = '\t' ∨ c = '\n' ∨ c = '\r'

def skipWs : List Char → List Char
  | c :: rest => if isWsChar c then skipWs rest else c :: rest
  | [] => []

def hexVal (c : Char) : Option Nat :=
  if 48 ≤ c.toNat ∧ c.toNat ≤ 57 then some (c.toNat - 48)
  else if 97 ≤ c.toNat ∧ c.toNat ≤ 102 then some (c.toNat - 87)
  else if 65 ≤ c.toNat ∧ c.toNat ≤ 70 then some (c.toNat - 55)
  else none

def parseStringChars : List Char → Except Unit (List Char × List Char)
  | [] => .error ()
  | c :: rest =>
    if c = '"' then .ok ([], rest)
    else if c = '\\' then
      match rest with
      | [] => .error ()
      | e :: rest2 =>
        if e = '"' ∨ e = '\\' ∨ e = '/' then
          match parseStringChars rest2 with
          | .ok (cs, r) => .ok (e :: cs, r)
          | .error err => .error err
        else if e = 'b' then
          match parseStringChars rest2 with
          | .ok (cs, r) => .ok (Char.ofNat 8 :: cs, r)
          | .error err => .error err
        else if e = 'f' then
          match parseStringChars rest2 with
          | .ok (cs, r) => .ok (Char.ofNat 12 :: cs, r)
          | .error err => .error err
        else if e = 'n' then
          match parseStringChars rest2 with
          | .ok (cs, r) => .ok ('\n' :: cs, r)
          | .error err => .error err
        else if e = 'r' then
          match parseStringChars rest2 with
          | .ok (cs, r) => .ok ('\r' :: cs, r)
          | .error err => .error err
        else if e = 't' then
          match parseStringChars rest2 with
          | .ok (cs, r) => .ok ('\t' :: cs, r)
          | .error err => .error err
        else if e = 'u' then
          match rest2 with
          | h1 :: h2 :: h3 :: h4 :: rest3 =>
            match hexVal h1, hexVal h2, hexVal h3, hexVal h4 with
            | some a, some b, some c3, some d =>
              if 55296 ≤ a * 4096 + b * 256 + c3 * 16 + d ∧
                  a * 4096 + b * 256 + c3 * 16 + d ≤ 56319 then
                match rest3 with
                | e2 :: u2 :: g1 :: g2 :: g3 :: g4 :: rest4 =>
                  if e2 = '\\' ∧ u2 = 'u' then
                    match hexVal g1, hexVal g2, hexVal g3, hexVal g4 with
                    | some a2, some b2, some c4, some d2 =>
                      if 56320 ≤ a2 * 4096 + b2 * 256 + c4 * 16 + d2 ∧
                          a2 * 4096 + b2 * 256 + c4 * 16 + d2 ≤ 57343 then
                        match parseStringChars rest4 with
                        | .ok (cs, r) =>
                          .ok (Char.ofNat (65536 +
                            (a * 4096 + b * 256 + c3 * 16 + d - 55296) * 1024 +
                            (a2 * 4096 + b2 * 256 + c4 * 16 + d2 - 56320)) :: cs, r)
                        | .error err => .error err
                      else .error ()
                    | _, _, _, _ => .error ()
                  else .error ()
                | _ => .error ()
              else
                match parseStringChars rest3 with
                | .ok (cs, r) =>
                  .ok (Char.ofNat (a * 4096 + b * 256 + c3 * 16 + d) :: cs, r)
                | .error err => .error err
            | _, _, _, _ => .error ()
          | _ => .error ()
        else .error ()
    else if c.toNat < 32 then .error ()
    else
      match parseStringChars rest with
      | .ok (cs, r) => .ok (c :: cs, r)
      | .error err => .error err

def isDigitChar (c : Char) : Bool := 48 ≤ c.toNat ∧ c.toNat ≤ 57

def parseDigitsAux : Nat → List Char → Nat × List Char
  | acc, c :: rest =>
    if isDigitChar c then parseDigitsAux (acc * 10 + (c.toNat - 48)) rest
    else (acc, c :: rest)
  | acc, [] => (acc, [])

def floatFollows : List Char → Bool
  | c :: _ => c = '.' ∨ c = 'e' ∨ c = 'E'
  | [] => false

def parseNumber : List Char → Except Unit (JVal × List Char)
  | '-' :: rest =>
    match rest with
    | c :: _ =>
      if isDigitChar c then
        match parseDigitsAux 0 rest with
        | (v, r) => if floatFollows r then .error () else .ok (.i (-(v : Int)), r)
      else .error ()
    | [] => .error ()
  | l =>
    match l with
    | c :: _ =>
      if isDigitChar c then
        match parseDigitsAux 0 l with
        | (v, r) => if floatFollows r then .error () else .ok (.i (v : Int), r)
      else .error ()
    | [] => .error ()

mutual
def parseVal : Nat → List Char → Except Unit (JVal × List Char)
  | 0, _ => .error ()
  | fuel + 1, l =>
    match skipWs l with
    | [] => .error ()
    | 'n' :: 'u' :: 'l' :: 'l' :: rest => .ok (.null, rest)
    | 't' :: 'r' :: 'u' :: 'e' :: rest => .ok (.b true, rest)
    | 'f' :: 'a' :: 'l' :: 's' :: 'e' :: rest => .ok (.b false, rest)
    | '"' :: rest =>
      match parseStringChars rest with
      | .ok (cs, r) => .ok (.s (String.mk cs), r)
      | .error err => .error err
    | '[' :: rest =>
      match skipWs rest with
      | ']' :: r2 => .ok (.arr [], r2)
      | other =>
        match parseArrItems fuel other with
        | .ok (items, r2) => .ok (.arr items, r2)
        | .error err => .error err
    | c :: rest =>
      if c = Char.ofNat 123 then
        match skipWs rest with
        | c2 :: r2 =>
          if c2 = Char.ofNat 125 then .ok (.obj [], r2)
          else
            match parseObjFields fuel (c2 :: r2) with
            | .ok (fields, r3) => .ok (.obj fields, r3)
            | .error err => .error err
        | [] => .error ()
      else parseNumber (c :: rest)
def parseArrItems : Nat → List Char → Except Unit (List JVal × List Char)
  | 0, _ => .error ()
  | fuel + 1, l =>
    match parseVal fuel l with
    | .error err => .error err
    | .ok (v, r) =>
      match skipWs r with
      | ',' :: r2 =>
        match parseArrItems fuel r2 with
        | .ok (vs, r3) => .ok (v :: vs, r3)
        | .error err => .error err
      | ']' :: r2 => .ok ([v], r2)
      | _ => .error ()
def parseObjFields : Nat → List Char → Except Unit (List (String × JVal) × List Char)
  | 0, _ => .error ()
  | fuel + 1, l =>
    match skipWs l with
    | '"' :: rest =>
      match parseStringChars rest with
      | .error err => .error err
      | .ok (key, r) =>
        match skipWs r with
        | ':' :: r2 =>
          match parseVal fuel r2 with
          | .error err => .error err
          | .ok (v, r3) =>
            match skipWs r3 with
            | ',' :: r4 =>
              match parseObjFields fuel r4 with
              | .ok (fields, r5) => .ok ((String.mk key, v) :: fields, r5)
              | .error err => .error err
            | c :: r4 =>
              if c = Char.ofNat 125 then .ok ([(String.mk key, v)], r4)
              else .error ()
            | [] => .error ()
        | _ => .error ()
    | _ => .error ()
end

def json_loads (l : List Char) : Except Unit JVal :=
  match parseVal (2 * l.length + 2) l with
  | .ok (v, rest) => if skipWs rest = [] then .ok v else .error ()
  | .error err => .error err

/-- UTF-8 decoding (model of `bytes.decode("utf-8")`). -/
def utf8Decode : List Nat → Except Unit (List Char)
  | [] => .ok []
  | b :: rest =>
    if b < 128 then
      match utf8Decode rest with
      | .ok cs => .ok (Char.ofNat b :: cs)
      | .error err => .error err
    else if b < 194 then .error ()
    else if b < 224 then
      match rest with
      | b2 :: rest2 =>
        if 128 ≤ b2 ∧ b2 < 192 then
          match utf8Decode rest2 with
          | .ok cs => .ok (Char.ofNat ((b - 192) * 64 + (b2 - 128)) :: cs)
          | .error err => .error err
        else .error ()
      | [] => .error ()
    else if b < 240 then
      match rest with
      | b2 :: b3 :: rest3 =>
        if 128 ≤ b2 ∧ b2 < 192 ∧ 128 ≤ b3 ∧ b3 < 192 then
          match utf8Decode rest3 with
          | .ok cs =>
            .ok (Char.ofNat ((b - 224) * 4096 + (b2 - 128) * 64 + (b3 - 128)) :: cs)
          | .error err => .error err
        else .error ()
      | _ => .error ()
    else if b < 245 then
      match rest with
      | b2 :: b3 :: b4 :: rest4 =>
        if 128 ≤ b2 ∧ b2 < 192 ∧ 128 ≤ b3 ∧ b3 < 192 ∧ 128 ≤ b4 ∧ b4 < 192 then
          match utf8Decode rest4 with
          | .ok cs =>
            .ok (Char.ofNat ((b - 240) * 262144 + (b2 - 128) * 4096 +
              (b3 - 128) * 64 + (b4 - 128)) :: cs)
          | .error err => .error err
        else .error ()
      | _ => .error ()
    else .error ()

def isObjOrArr : JVal → Bool
  | .arr _ => true
  | .obj _ => true
  | _ => false

/-- `shared.signing._body_payload` on raw bytes: decode UTF-8, `json.loads`,
require a JSON object or list. -/
def body_payload_bytes (body : List Nat) : Except Unit JVal :=
  match utf8Decode body with
  | .error err => .error err
  | .ok cs =>
    match json_loads cs with
    | .error err => .error err
    | .ok v => if isObjOrArr v then .ok v else .error ()

def sign_request_bytes (body : List Nat) (api_key : String) : Except Unit String :=
  match body_payload_bytes body with
  | .ok v => .ok (sign_request v api_key)
  | .error err => .error err

def build_signed_headers_bytes (body : List Nat) (api_key org_id device_id : String)
    (timestamp : Int) (nonce : String) : Except Unit SignedHeaders :=
  match sign_request_bytes body api_key with
  | .ok sig => .ok { org := org_id, device := device_id,
                     timestamp := intToDecString timestamp, nonce := nonce,
                     signature := sig }
  | .error err => .error err

/-- `verify_request` on raw body bytes: the signature is recomputed over the
canonical re-encoding of the parsed body, not over the raw bytes, and the
final comparison is `compare_digest` with its non-ASCII `TypeError` path. -/
def verify_request_bytes (body : List Nat) (headers : SignedHeaders)
    (api_key : String) : Except VerifyError Bool :=
  if headers.signature = "" then .error .missingHeader
  else if headers.timestamp = "" then .error .missingHeader
  else if headers.nonce = "" then .error .missingHeader
  else
    match sign_request_bytes body api_key with
    | .ok expected => compare_digest headers.signature expected
    | .error _ => .error .badPayload

/-- Flip bit `bit` of the byte at index `i`. -/
def flipByteAt : List Nat → Nat → Nat → List Nat
  | [], _, _ => []
  | b :: rest, 0, bit => (b ^^^ (1 <<< bit)) :: rest
  | b :: rest, i + 1, bit => b :: flipByteAt rest i bit

/-- Flip bit `bit` of the character at index `i`. -/
def flipCharAt : List Char → Nat → Nat → List Char
  | [], _, _ => []
  | c :: rest, 0, bit => Char.ofNat (c.toNat ^^^ (1 <<< bit)) :: rest
  | c :: rest, i + 1, bit => c :: flipCharAt rest i bit

def flipBitStr (s : String) (i bit : Nat) : String :=
  String.mk (flipCharAt s.data i bit)

/-- The canonical body bytes of `["J"]` (upper-case hex escape). -/
def c1Body : List Nat := [91, 34, 92, 117, 48, 48, 52, 65, 34, 93]

/-- The same bytes with one bit flipped: `["J"]` (lower-case hex
escape), which parses to the same JSON value. -/
def c1BodyFlipped : List Nat := [91, 34, 92, 117, 48, 48, 52, 97, 34, 93]

/-! ## Insight fingerprint (src/core/dedup.py, `build_fingerprint`) -/

def STABLE_EVIDENCE_KEYS : List String :=
  ["process_name", "exe", "pid", "ip", "port", "username", "event_type",
   "listener", "metric", "classification", "change"]

def evLookup (evidence : List (String × JVal)) (k : String) : Option JVal :=
  (evidence.find? (fun kv => kv.1 == k)).map (fun kv => kv.2)

def isPrimitiveJV : JVal → Bool
  | .arr _ => false
  | .obj _ => false
  | _ => true

def asciiLower (s : String) : String :=
  String.mk (s.data.map (fun c =>
    if 65 ≤ c.toNat ∧ c.toNat ≤ 90 then Char.ofNat (c.toNat + 32) else c))

def isPyWsChar (c : Char) : Bool :=
  c.toNat = 32 ∨ c.toNat = 9 ∨ c.toNat = 10 ∨ c.toNat = 13 ∨
  c.toNat = 12 ∨ c.toNat = 11

def splitWsAux : List Char → List Char → List (List Char)
  | [], acc => if acc = [] then [] else [acc.reverse]
  | c :: rest, acc =>
    if isPyWsChar c then
      if acc = [] then splitWsAux rest []
      else acc.reverse :: splitWsAux rest []
    else splitWsAux rest (c :: acc)

def joinSpace : List String → String
  | [] => ""
  | [w] => w
  | w :: rest => w ++ " " ++ joinSpace rest

/-- `" ".join(s.split())`: collapse whitespace runs. -/
def collapseWs (s : String) : String :=
  joinSpace ((splitWsAux s.data []).map String.mk)

/-- The stable-allowlist projection of the evidence, in allowlist order. -/
def stableEvidence (evidence : List (String × JVal)) : List (String × JVal) :=
  STABLE_EVIDENCE_KEYS.filterMap (fun k => (evLookup evidence k).map (fun v => (k, v)))

/-- The `stable` payload: allowlist projection, or when that is empty the
primitive-valued entries of the evidence sorted by key. -/
def fingerprintStable (evidence : List (String × JVal)) : List (String × JVal) :=
  if stableEvidence evidence = []
  then (sortFieldsByKey evidence).filter (fun kv => isPrimitiveJV kv.2)
  else stableEvidence evidence

def fingerprintPayload (source title : String)
    (evidence : List (String × JVal)) : JVal :=
  .obj [("source", .s (asciiLower source)),
        ("title", .s (collapseWs (asciiLower title))),
        ("stable", .obj (fingerprintStable evidence))]

/-- `build_fingerprint`: SHA-256 hex digest of the canonical JSON of
`{"source": source.lower(), "title": collapsed lower title, "stable": ...}`. -/
def build_fingerprint (source title : String)
    (evidence : List (String × JVal)) : String :=
  hexOfBytes (sha256 (utf8Bytes (canonical_json_text
    (fingerprintPayload source title evidence))))

/-! ## Batch splitter (src/agent/runtime.py, `split_batches`) -/

/-- The agent-side event envelope as serialized by `model_dump(mode="json")`
(the timestamp already rendered to its ISO string). -/
structure EventEnvelope where
  ts : String
  source : String
  severity : String
  platform : String
  title : String
  details_json : JVal
deriving DecidableEq, Repr

def eventJson (e : EventEnvelope) : JVal :=
  .obj [("ts", .s e.ts), ("source", .s e.source), ("severity", .s e.severity),
        ("platform", .s e.platform), ("title", .s e.title),
        ("details_json", e.details_json)]

def ingestRequestJson (org_id device_id agent_version sent_at nonce : String)
    (events : List EventEnvelope) : JVal :=
  .obj [("org_id", .s org_id), ("device_id", .s device_id),
        ("agent_version", .s agent_version), ("sent_at", .s sent_at),
        ("nonce", .s nonce), ("events", .arr (events.map eventJson))]

/-- `_request_size_for`: canonical byte size of the batch in ingest-request
shape, with the probe nonce `"n" * 32` and a fixed `sent_at` rendering (the
source reads the clock here; the embedding threads it as an argument). -/
def request_size_for (org_id device_id agent_version sent_at : String)
    (events : List EventEnvelope) : Nat :=
  (canonical_json_bytes (ingestRequestJson org_id device_id agent_version sent_at
    (String.mk (List.replicate 32 'n')) events)).length

/-- One step of the greedy splitter loop. -/
def splitStep (sizeOf : List EventEnvelope → Nat) (maxEvents maxBytes : Nat)
    (st : List (List EventEnvelope) × List EventEnvelope)
    (event : EventEnvelope) :
    List (List EventEnvelope) × List EventEnvelope :=
  if st.2 ≠ [] ∧ (maxEvents < (st.2 ++ [event]).length ∨
      maxBytes < sizeOf (st.2 ++ [event])) then
    (st.1 ++ [st.2], [event])
  else (st.1, st.2 ++ [event])

def split_batches_gen (sizeOf : List EventEnvelope → Nat)
    (maxEvents maxBytes : Nat) (events : List EventEnvelope) :
    List (List EventEnvelope) :=
  if events = [] then []
  else
    let result := events.foldl (splitStep sizeOf maxEvents maxBytes) ([], [])
    if result.2 ≠ [] then result.1 ++ [result.2] else result.1

/-- `split_batches` with `max_events = min(config.max_batch_events,
MAX_EVENTS_PER_BATCH)` passed in as `maxEvents` and `MAX_PAYLOAD_BYTES` as
`maxBytes`. -/
def split_batches (org_id device_id agent_version sent_at : String)
    (maxEvents maxBytes : Nat) (events : List EventEnvelope) :
    List (List EventEnvelope) :=
  split_batches_gen (request_size_for org_id device_id agent_version sent_at)
    maxEvents maxBytes events

instance {ε α : Type} [DecidableEq ε] [DecidableEq α] : DecidableEq (Except ε α) :=
  fun x y =>
    match x, y with
    | .ok a, .ok b =>
        if h : a = b then isTrue (by rw [h]) else isFalse (by intro hh; cases hh; exact h rfl)
    | .error a, .error b =>
        if h : a = b then isTrue (by rw [h]) else isFalse (by intro hh; cases hh; exact h rfl)
    | .ok _, .error _ => isFalse (by intro hh; cases hh)
    | .error _, .ok _ => isFalse (by intro hh; cases hh)

/-! ## Concrete fixtures for witnesses and counterexamples -/

def exEnvA : EventEnvelope :=
  { ts := "2026-10-01T00:00:00+00:00", source := "auth", severity := "WARN",
    platform := "macos", title := "failed login", details_json := .null }

def exEnvB : EventEnvelope :=
  { ts := "2026-10-01T00:00:01+00:00", source := "network", severity := "INFO",
    platform := "macos", title := "listener", details_json := .null }

def exOrg : OrgRow := { org_id := "o", is_active := true }

def exEvent : IngestEvent :=
  { ts := 100, source := "auth", severity := "WARN", platform := "macos",
    title := "failed login burst" }

def exReq : IngestReq :=
  { org_id := "o", device_id := "d", agent_version := "1.0.0",
    nonce := "0123456789abcdef0123456789abcdef", events := [exEvent] }

def exDevice : DeviceRow :=
  { org_id := "o", device_id := "d", platform := "macos",
    agent_version := "0.9.0", first_seen_at := 0, last_seen_at := 0 }

def exNonceRow : NonceRow :=
  { org_id := "o", device_id := "d", nonce := "0123456789abcdef0123456789abcdef",
    seen_at := 50, expires_at := 350 }

def exStEmpty : DbState := { orgs := [exOrg], nonces := [], devices := [], events := [] }

def exStWithNonce : DbState :=
  { orgs := [exOrg], nonces := [exNonceRow], devices := [], events := [] }

def exStWithDevice : DbState :=
  { orgs := [exOrg], nonces := [], devices := [exDevice], events := [] }

/-! ## Helper lemmas -/

theorem pyRound_nonneg (q : ℚ) (hq : 0 ≤ q) : 0 ≤ pyRound q := by
  unfold pyRound
  have hf : (0 : ℤ) ≤ ⌊q⌋ := Int.floor_nonneg.2 hq
  split
  · exact hf
  · split
    · omega
    · split <;> omega

theorem backoff_monotone {r1 r2 : Nat} (h : r1 ≤ r2) :
    backoff_seconds r1 ≤ backoff_seconds r2 := by
  unfold backoff_seconds
  have hpow : 2 ^ r1 ≤ 2 ^ r2 := Nat.pow_le_pow_right (by norm_num) h
  omega

theorem backoff_le_300 (r : Nat) : backoff_seconds r ≤ 300 := by
  unfold backoff_seconds; omega

theorem risk_score_eq_spec (events : List REvent) :
    risk_score events = risk_score_spec events := by
  unfold risk_score risk_score_spec
  by_cases h30 : raw30 events = []
  · simp only [h30, List.nil_append]
    by_cases hrt : 0 < rawToday events
    · have hfold : ([rawToday events].foldl max 0) = rawToday events := by
        simp [List.foldl]
      simp only [ne_eq, not_true_eq_false, false_or, hrt, if_pos, hfold]
      congr 2
      push_cast [Nat.cast_max]
      rw [sup_comm]
      ring
    · have hz : rawToday events = 0 := by omega
      simp [hz, List.foldl]
  · have hne : raw30 events ≠ [] ∨ 0 < rawToday events := Or.inl h30
    simp only [if_pos hne]
    congr 2
    push_cast [Nat.cast_max]
    rw [sup_comm]
    ring

theorem risk_score_range (events : List REvent) :
    0 ≤ risk_score events ∧ risk_score events ≤ 100 := by
  unfold risk_score
  refine ⟨le_min (by norm_num) ?_, min_le_left _ _⟩
  apply pyRound_nonneg
  have h1 : (0 : ℚ) ≤ (rawToday events : ℚ) := by positivity
  have h2 : (0 : ℚ) <
      ((max (if raw30 events ≠ [] ∨ 0 < rawToday events
        then (raw30 events ++ [rawToday events]).foldl max 0 else 30) 30 : Nat) : ℚ) := by
    have h30 : (0:Nat) < max (if raw30 events ≠ [] ∨ 0 < rawToday events
        then (raw30 events ++ [rawToday events]).foldl max 0 else 30) 30 := by
      have := le_max_right (if raw30 events ≠ [] ∨ 0 < rawToday events
        then (raw30 events ++ [rawToday events]).foldl max 0 else 30) 30
      omega
    exact_mod_cast h30
  positivity

/-! ### Server store lemmas -/

theorem find?_append_none {α : Type} (l1 l2 : List α) (p : α → Bool)
    (h : l1.find? p = none) : (l1 ++ l2).find? p = l2.find? p := by
  induction l1 with
  | nil => rfl
  | cons a l ih =>
    rw [List.find?_eq_none] at h
    have ha : p a = false := by
      have := h a (by simp)
      simp [this]
    have hrest : l.find? p = none := by
      rw [List.find?_eq_none]
      intro x hx
      exact h x (by simp [hx])
    simp [List.find?, ha, ih hrest]

theorem find?_map_upd {α : Type} (l : List α) (p : α → Bool) (u : α → α)
    (hu : ∀ d, p (u d) = p d) :
    (l.map (fun d => if p d then u d else d)).find? p = (l.find? p).map u := by
  induction l with
  | nil => rfl
  | cons a l ih =>
    by_cases h : p a = true
    · simp [List.find?, h, hu]
    · have h' : p a = false := by simp at h; simp [h]
      simp [List.find?, h', hu, ih]

theorem upsertDevice_nonces (st : DbState) (req : IngestReq) (seen : Int) :
    (upsertDevice st req seen).nonces = st.nonces := by
  unfold upsertDevice
  cases st.devices.find? (deviceMatches req) <;> rfl

theorem upsertDevice_events (st : DbState) (req : IngestReq) (seen : Int) :
    (upsertDevice st req seen).events = st.events := by
  unfold upsertDevice
  cases st.devices.find? (deviceMatches req) <;> rfl

theorem upsertDevice_devices_of_find (st : DbState) (req : IngestReq) (seen : Int) :
    (upsertDevice st req seen).devices.find? (deviceMatches req) =
      match st.devices.find? (deviceMatches req) with
      | none => some { org_id := req.org_id, device_id := req.device_id,
                       platform := inferredPlatform req,
                       agent_version := req.agent_version,
                       first_seen_at := seen, last_seen_at := seen }
      | some d => some { d with platform := inferredPlatform req,
                                agent_version := req.agent_version,
                                last_seen_at := seen } := by
  unfold upsertDevice
  cases hf : st.devices.find? (deviceMatches req) with
  | none =>
      simp only
      rw [find?_append_none _ _ _ hf]
      simp [List.find?, deviceMatches]
  | some d =>
      simp only
      rw [find?_map_upd _ _ _ (by intro x; simp [deviceMatches])]
      rw [hf]
      have hd : deviceMatches req d = true := List.find?_some hf
      simp [hd]

theorem replayPresent_gc_of_live (st : DbState) (req : IngestReq) (seen : Int)
    (n : NonceRow) (hmem : n ∈ st.nonces) (hmatch : nonceMatches req n = true)
    (hlive : seen ≤ n.expires_at) :
    replayPresent (gcNonces st seen) req = true := by
  unfold replayPresent gcNonces
  rw [List.any_eq_true]
  refine ⟨n, ?_, hmatch⟩
  rw [List.mem_filter]
  refine ⟨hmem, ?_⟩
  simp [not_lt.2 hlive]

theorem replayPresent_gc_of_fresh (st : DbState) (req : IngestReq) (seen : Int)
    (hfresh : ∀ n ∈ st.nonces, nonceMatches req n = true → n.expires_at < seen) :
    replayPresent (gcNonces st seen) req = false := by
  unfold replayPresent gcNonces
  rw [List.any_eq_false]
  intro n hn
  rw [List.mem_filter] at hn
  intro hmatch
  have := hfresh n hn.1 hmatch
  have hkeep := hn.2
  simp [this] at hkeep

/-! ### Signature helper lemmas -/

theorem char_toNat_ofNat_lt (m : Nat) (hm : m < 55296) : (Char.ofNat m).toNat = m := by
  have hv : Nat.isValidChar m := Or.inl hm
  simp [Char.ofNat, hv, Char.ofNatAux, Char.toNat, UInt32.toNat]

theorem hexDigitChar_toNat_lt (n : Nat) : (hexDigitChar n).toNat < 128 := by
  have h : n % 16 < 16 := Nat.mod_lt _ (by norm_num)
  unfold hexDigitChar
  split
  · rw [char_toNat_ofNat_lt _ (by omega)]; omega
  · rw [char_toNat_ofNat_lt _ (by omega)]; omega

theorem hexOfBytes_length (bs : List Nat) : (hexOfBytes bs).length = 2 * bs.length := by
  show ((bs.map (fun b => [hexDigitChar (b / 16), hexDigitChar b])).flatten).length
    = 2 * bs.length
  induction bs with
  | nil => rfl
  | cons b rest ih =>
    rw [List.map_cons, List.flatten_cons, List.length_append, ih]
    simp
    omega

theorem hexOfBytes_chars_lt (bs : List Nat) :
    ∀ c ∈ (hexOfBytes bs).data, c.toNat < 128 := by
  intro c hc
  have hc2 : c ∈ (bs.map (fun b => [hexDigitChar (b / 16), hexDigitChar b])).flatten := hc
  rw [List.mem_flatten] at hc2
  obtain ⟨pair, hp, hcp⟩ := hc2
  rw [List.mem_map] at hp
  obtain ⟨b, _, rfl⟩ := hp
  simp only [List.mem_cons, List.mem_singleton, List.not_mem_nil, or_false] at hcp
  rcases hcp with rfl | rfl <;> exact hexDigitChar_toNat_lt _

theorem sha256_length (msg : List Nat) : (sha256 msg).length = 32 := by
  simp [sha256, wordBytes]

theorem hmacSha256_length (key msg : List Nat) : (hmacSha256 key msg).length = 32 := by
  simp [hmacSha256, sha256_length]

theorem sign_request_length (v : JVal) (k : String) :
    (sign_request v k).length = 64 := by
  unfold sign_request
  rw [hexOfBytes_length, hmacSha256_length]

theorem sign_request_ne_empty (v : JVal) (k : String) : sign_request v k ≠ "" := by
  intro h
  have hl := sign_request_length v k
  rw [h] at hl
  simp at hl

theorem natToDecAux_length_pos (fuel n : Nat) :
    0 < (natToDecAux (fuel + 1) n).length := by
  rw [natToDecAux]
  split
  · simp [String.singleton]
  · rw [String.length_append]
    have hs : (String.singleton (Char.ofNat (48 + n % 10))).length = 1 := rfl
    omega

theorem intToDecString_ne_empty (i : Int) : intToDecString i ≠ "" := by
  intro h
  have hlen : (intToDecString i).length = 0 := by rw [h]; rfl
  unfold intToDecString natToDecString at hlen
  split at hlen
  · rw [String.length_append] at hlen
    have := natToDecAux_length_pos i.natAbs i.natAbs
    omega
  · have := natToDecAux_length_pos i.toNat i.toNat
    omega

theorem flipCharAt_length (l : List Char) (i bit : Nat) :
    (flipCharAt l i bit).length = l.length := by
  induction l generalizing i with
  | nil => rfl
  | cons c rest ih =>
    cases i with
    | zero => rfl
    | succ j => simp [flipCharAt, ih]

theorem flipCharAt_ne : ∀ (l : List Char) (i bit : Nat), i < l.length → bit < 8 →
    (∀ c ∈ l, c.toNat < 128) → flipCharAt l i bit ≠ l
  | [], i, bit, hi, _, _ => by simp at hi
  | c :: rest, 0, bit, hi, hbit, hlt => by
    simp only [flipCharAt]
    intro h
    injection h with h1 _
    have hcl : c.toNat < 128 := hlt c (by simp)
    have hshift : (1 <<< bit) < 256 := by
      rw [Nat.shiftLeft_eq, one_mul]
      calc 2 ^ bit ≤ 2 ^ 7 := Nat.pow_le_pow_right (by norm_num) (by omega)
        _ < 256 := by norm_num
    have hxor : c.toNat ^^^ (1 <<< bit) < 256 := by
      have h8 : (256 : Nat) = 2 ^ 8 := by norm_num
      rw [h8]
      exact Nat.xor_lt_two_pow (by omega) (by omega)
    have htn := char_toNat_ofNat_lt (c.toNat ^^^ (1 <<< bit)) (by omega)
    rw [h1] at htn
    have hz : (1 <<< bit) = 0 := by
      have h3 := congrArg (fun x => c.toNat ^^^ x) htn.symm
      simp only at h3
      rw [← Nat.xor_assoc, Nat.xor_self, Nat.zero_xor] at h3
      exact h3
    have hpos : 0 < (1 <<< bit) := by
      rw [Nat.shiftLeft_eq, one_mul]
      positivity
    omega
  | c :: rest, i + 1, bit, hi, hbit, hlt => by
    simp only [flipCharAt]
    intro h
    injection h with _ h2
    exact flipCharAt_ne rest i bit (by simpa using hi) hbit
      (fun c hc => hlt c (List.mem_cons_of_mem _ hc)) h2

theorem flipBitStr_length (s : String) (i bit : Nat) :
    (flipBitStr s i bit).length = s.length := by
  show (flipCharAt s.data i bit).length = s.length
  rw [flipCharAt_length]
  rfl

theorem flipBitStr_sig_ne (v : JVal) (k : String) (i bit : Nat)
    (hi : i < 64) (hbit : bit < 8) :
    flipBitStr (sign_request v k) i bit ≠ sign_request v k := by
  intro h
  have hdata : flipCharAt (sign_request v k).data i bit = (sign_request v k).data :=
    congrArg String.data h
  have hlen : (sign_request v k).data.length = 64 := sign_request_length v k
  have hchars : ∀ c ∈ (sign_request v k).data, c.toNat < 128 := by
    unfold sign_request
    exact hexOfBytes_chars_lt _
  exact flipCharAt_ne _ i bit (by omega) hbit hchars hdata

theorem flipBitStr_sig_ne_empty (v : JVal) (k : String) (i bit : Nat) :
    flipBitStr (sign_request v k) i bit ≠ "" := by
  intro h
  have hl := flipBitStr_length (sign_request v k) i bit
  rw [h, sign_request_length] at hl
  simp at hl

theorem sign_request_isAscii (v : JVal) (k : String) :
    strIsAscii (sign_request v k) = true := by
  unfold strIsAscii
  rw [List.all_eq_true]
  intro c hc
  have h := hexOfBytes_chars_lt (hmacSha256 (utf8Bytes k) (canonical_json_bytes v)) c hc
  simpa using h

theorem flipCharAt_all_lt : ∀ (l : List Char) (i bit : Nat), bit < 7 →
    (∀ c ∈ l, c.toNat < 128) → ∀ c ∈ flipCharAt l i bit, c.toNat < 128
  | [], _, _, _, _ => by simp [flipCharAt]
  | c :: rest, 0, bit, hbit, hlt => by
    simp only [flipCharAt]
    intro x hx
    rcases List.mem_cons.1 hx with rfl | hx
    · have hcl : c.toNat < 128 := hlt c (by simp)
      have hshift : (1 <<< bit) < 128 := by
        rw [Nat.shiftLeft_eq, one_mul]
        calc 2 ^ bit ≤ 2 ^ 6 := Nat.pow_le_pow_right (by norm_num) (by omega)
          _ < 128 := by norm_num
      have hxor : c.toNat ^^^ (1 <<< bit) < 128 := by
        have h7 : (128 : Nat) = 2 ^ 7 := by norm_num
        rw [h7] at hcl hshift ⊢
        exact Nat.xor_lt_two_pow hcl hshift
      rw [char_toNat_ofNat_lt _ (by omega)]
      exact hxor
    · exact hlt x (List.mem_cons_of_mem _ hx)
  | c :: rest, i + 1, bit, hbit, hlt => by
    simp only [flipCharAt]
    intro x hx
    rcases List.mem_cons.1 hx with rfl | hx
    · exact hlt x (by simp)
    · exact flipCharAt_all_lt rest i bit hbit
        (fun c hc => hlt c (List.mem_cons_of_mem _ hc)) x hx

theorem flipBitStr_sig_isAscii (v : JVal) (k : String) (i bit : Nat)
    (hbit : bit < 7) :
    strIsAscii (flipBitStr (sign_request v k) i bit) = true := by
  unfold strIsAscii flipBitStr
  rw [List.all_eq_true]
  intro c hc
  have hchars : ∀ c ∈ (sign_request v k).data, c.toNat < 128 := by
    unfold sign_request
    exact hexOfBytes_chars_lt _
  have := flipCharAt_all_lt (sign_request v k).data i bit hbit hchars c hc
  simpa using this

theorem flipCharAt_bit7_not_ascii : ∀ (l : List Char) (i : Nat), i < l.length →
    (∀ c ∈ l, c.toNat < 128) →
    (flipCharAt l i 7).all (fun c => c.toNat < 128) = false
  | [], i, hi, _ => by simp at hi
  | c :: rest, 0, _, hlt => by
    have h128 : (1 <<< 7 : Nat) = 128 := rfl
    simp only [flipCharAt, h128, List.all_cons]
    have hcl : c.toNat < 128 := hlt c (by simp)
    have hadd : c.toNat ^^^ 128 = c.toNat + 128 :=
      (by decide : ∀ x < 128, x ^^^ 128 = x + 128) c.toNat hcl
    have htn : (Char.ofNat (c.toNat ^^^ 128)).toNat = c.toNat + 128 := by
      rw [char_toNat_ofNat_lt _ (by rw [hadd]; omega), hadd]
    have hge : ¬ ((Char.ofNat (c.toNat ^^^ 128)).toNat < 128) := by
      rw [htn]; omega
    simp [hge]
  | c :: rest, i + 1, hi, hlt => by
    simp only [flipCharAt, List.all_cons]
    rw [flipCharAt_bit7_not_ascii rest i (by simpa using hi)
      (fun c hc => hlt c (List.mem_cons_of_mem _ hc))]
    simp

theorem flipBitStr_sig_bit7_not_ascii (v : JVal) (k : String) (i : Nat)
    (hi : i < 64) :
    strIsAscii (flipBitStr (sign_request v k) i 7) = false := by
  unfold strIsAscii flipBitStr
  show (flipCharAt (sign_request v k).data i 7).all (fun c => c.toNat < 128) = false
  apply flipCharAt_bit7_not_ascii
  · have hl : (sign_request v k).data.length = 64 := sign_request_length v k
    omega
  · unfold sign_request
    exact hexOfBytes_chars_lt _

/-! ### Batch splitter helper lemmas -/

theorem split_fold_flatten (sizeOf : List EventEnvelope → Nat) (maxE maxB : Nat) :
    ∀ (events : List EventEnvelope)
      (acc : List (List EventEnvelope) × List EventEnvelope),
      ((events.foldl (splitStep sizeOf maxE maxB) acc).1.flatten ++
        (events.foldl (splitStep sizeOf maxE maxB) acc).2)
      = acc.1.flatten ++ acc.2 ++ events
  | [], acc => by simp
  | e :: rest, acc => by
    rw [List.foldl_cons,
      split_fold_flatten sizeOf maxE maxB rest (splitStep sizeOf maxE maxB acc e)]
    unfold splitStep
    split
    · simp
    · simp

theorem split_fold_ok (sizeOf : List EventEnvelope → Nat) (maxE maxB : Nat)
    (hmax : 1 ≤ maxE) :
    ∀ (events : List EventEnvelope)
      (acc : List (List EventEnvelope) × List EventEnvelope),
      (∀ b ∈ acc.1, b.length ≤ maxE ∧ (sizeOf b ≤ maxB ∨ b.length = 1)) →
      (acc.2 = [] ∨ (acc.2.length ≤ maxE ∧ (sizeOf acc.2 ≤ maxB ∨ acc.2.length = 1))) →
      (∀ b ∈ (events.foldl (splitStep sizeOf maxE maxB) acc).1,
        b.length ≤ maxE ∧ (sizeOf b ≤ maxB ∨ b.length = 1)) ∧
      ((events.foldl (splitStep sizeOf maxE maxB) acc).2 = [] ∨
        ((events.foldl (splitStep sizeOf maxE maxB) acc).2.length ≤ maxE ∧
         (sizeOf (events.foldl (splitStep sizeOf maxE maxB) acc).2 ≤ maxB ∨
          (events.foldl (splitStep sizeOf maxE maxB) acc).2.length = 1)))
  | [], _, hb, hc => ⟨hb, hc⟩
  | e :: rest, acc, hb, hc => by
    rw [List.foldl_cons]
    apply split_fold_ok sizeOf maxE maxB hmax rest
    · unfold splitStep
      split
      · rename_i hcond
        intro b hbmem
        rw [List.mem_append] at hbmem
        rcases hbmem with h | h
        · exact hb b h
        · rw [List.mem_singleton] at h
          subst h
          rcases hc with hc | hc
          · exact absurd hc hcond.1
          · exact hc
      · exact hb
    · unfold splitStep
      split
      · exact Or.inr ⟨by simpa using hmax, Or.inr rfl⟩
      · rename_i hcond
        right
        by_cases hc2 : acc.2 = []
        · rw [hc2]
          exact ⟨by simpa using hmax, Or.inr rfl⟩
        · have hbound : ¬(maxE < (acc.2 ++ [e]).length ∨ maxB < sizeOf (acc.2 ++ [e])) :=
            fun hor => hcond ⟨hc2, hor⟩
          push_neg at hbound
          exact ⟨hbound.1, Or.inl hbound.2⟩

theorem split_gen_flatten (sizeOf : List EventEnvelope → Nat) (maxE maxB : Nat)
    (events : List EventEnvelope) :
    (split_batches_gen sizeOf maxE maxB events).flatten = events := by
  unfold split_batches_gen
  by_cases hev : events = []
  · simp [hev]
  · rw [if_neg hev]
    have hj := split_fold_flatten sizeOf maxE maxB events ([], [])
    simp only [List.flatten_nil, List.nil_append] at hj
    show (if (events.foldl (splitStep sizeOf maxE maxB) ([], [])).2 ≠ [] then
        (events.foldl (splitStep sizeOf maxE maxB) ([], [])).1 ++
          [(events.foldl (splitStep sizeOf maxE maxB) ([], [])).2]
      else (events.foldl (splitStep sizeOf maxE maxB) ([], [])).1).flatten = events
    split
    · rw [List.flatten_append]
      simpa using hj
    · rename_i hcur
      simp only [ne_eq, not_not] at hcur
      rw [hcur] at hj
      simpa using hj

theorem split_gen_bounds (sizeOf : List EventEnvelope → Nat) (maxE maxB : Nat)
    (hmax : 1 ≤ maxE) (events : List EventEnvelope) :
    ∀ batch ∈ split_batches_gen sizeOf maxE maxB events,
      batch.length ≤ maxE ∧ (sizeOf batch ≤ maxB ∨ batch.length = 1) := by
  intro batch hmem
  unfold split_batches_gen at hmem
  by_cases hev : events = []
  · simp [hev] at hmem
  · rw [if_neg hev] at hmem
    replace hmem : batch ∈
        (if (events.foldl (splitStep sizeOf maxE maxB) ([], [])).2 ≠ [] then
          (events.foldl (splitStep sizeOf maxE maxB) ([], [])).1 ++
            [(events.foldl (splitStep sizeOf maxE maxB) ([], [])).2]
        else (events.foldl (splitStep sizeOf maxE maxB) ([], [])).1) := hmem
    have hinv := split_fold_ok sizeOf maxE maxB hmax events ([], [])
      (by intro b hbm; simp at hbm) (Or.inl rfl)
    split at hmem
    · rename_i hcur
      rw [List.mem_append] at hmem
      rcases hmem with h | h
      · exact hinv.1 batch h
      · rw [List.mem_singleton] at h
        subst h
        rcases hinv.2 with h2 | h2
        · exact absurd h2 hcur
        · exact h2
    · exact hinv.1 batch hmem

/-! ## Claim theorems -/

/-- Claim C2, replay protection: with an active org, an ingest whose
`(org, device, nonce)` triple is already present and unexpired at `seen_at`
returns 0 and the endpoint maps that to 409, persisting no new events,
device updates, or nonce rows (only lazy GC of expired nonces happens);
with no such live triple the request succeeds, inserting the nonce and
returning the number of events. -/
theorem c2_replay_protection (st : DbState) (req : IngestReq) (org : OrgRow)
    (seen window : Int)
    (horg : findOrg st req.org_id = some org) (hact : org.is_active = true) :
    (∀ n ∈ st.nonces, nonceMatches req n = true → seen ≤ n.expires_at →
      (ingest_request false req seen window st).1 = .ok 0 ∧
      ingest_status 0 = 409 ∧
      ((ingest_request false req seen window st).2).events = st.events ∧
      ((ingest_request false req seen window st).2).devices = st.devices ∧
      ((ingest_request false req seen window st).2).nonces.Sublist st.nonces) ∧
    ((∀ n ∈ st.nonces, nonceMatches req n = true → n.expires_at < seen) →
      (ingest_request false req seen window st).1 = .ok (req.events.length : Int) ∧
      ({ org_id := req.org_id, device_id := req.device_id, nonce := req.nonce,
         seen_at := seen, expires_at := seen + window } : NonceRow)
        ∈ ((ingest_request false req seen window st).2).nonces) := by
  constructor
  · intro n hmem hmatch hlive
    have hrp := replayPresent_gc_of_live st req seen n hmem hmatch hlive
    have heq : ingest_request false req seen window st = (.ok 0, gcNonces st seen) := by
      simp only [ingest_request, ingest_core, horg, hact, Bool.not_true,
        Bool.false_eq_true, if_false, hrp, if_true]
    refine ⟨by rw [heq], rfl, by rw [heq]; rfl, by rw [heq]; rfl, ?_⟩
    rw [heq]
    exact List.filter_sublist _
  · intro hfresh
    have hrp := replayPresent_gc_of_fresh st req seen hfresh
    have heq : ingest_request false req seen window st =
        (.ok (req.events.length : Int),
         appendEvents (upsertDevice (insertNonce (gcNonces st seen) req seen
           (seen + window)) req seen) req) := by
      simp only [ingest_request, ingest_core, horg, hact, Bool.not_true,
        Bool.false_eq_true, if_false, hrp, Bool.false_eq_true]
    refine ⟨by rw [heq], ?_⟩
    rw [heq]
    show _ ∈ (upsertDevice (insertNonce (gcNonces st seen) req seen
      (seen + window)) req seen).nonces
    rw [upsertDevice_nonces]
    simp [insertNonce]

/-- Claim C3, ingest atomicity: with an active org and no live matching
nonce, a storage failure while persisting the device or event rows rolls the
whole transaction back (the state, including the nonce insert, is unchanged
and the error propagates), so an immediate retry of the same request
succeeds instead of being rejected as a replay; on success the nonce row,
the device upsert and all event rows land in the single committed state. -/
theorem c3_ingest_atomicity (st : DbState) (req : IngestReq) (org : OrgRow)
    (seen window : Int)
    (horg : findOrg st req.org_id = some org) (hact : org.is_active = true)
    (hfresh : ∀ n ∈ st.nonces, nonceMatches req n = true → n.expires_at < seen) :
    ingest_request true req seen window st = (.error (), st) ∧
    (ingest_request false req seen window st).1 = .ok (req.events.length : Int) ∧
    ({ org_id := req.org_id, device_id := req.device_id, nonce := req.nonce,
       seen_at := seen, expires_at := seen + window } : NonceRow)
      ∈ ((ingest_request false req seen window st).2).nonces ∧
    ((ingest_request false req seen window st).2).events
      = st.events ++ req.events.map (eventToRow req) ∧
    (∃ d ∈ ((ingest_request false req seen window st).2).devices,
      deviceMatches req d = true) := by
  have hrp := replayPresent_gc_of_fresh st req seen hfresh
  refine ⟨?_, ?_, ?_, ?_, ?_⟩
  · simp only [ingest_request, ingest_core, horg, hact, Bool.not_true,
      Bool.false_eq_true, if_false, hrp, if_true]
  · simp only [ingest_request, ingest_core, horg, hact, Bool.not_true,
      Bool.false_eq_true, if_false, hrp, if_true]
  · simp only [ingest_request, ingest_core, horg, hact, Bool.not_true,
      Bool.false_eq_true, if_false, hrp, if_true]
    show _ ∈ (upsertDevice (insertNonce (gcNonces st seen) req seen
      (seen + window)) req seen).nonces
    rw [upsertDevice_nonces]
    simp [insertNonce]
  · simp only [ingest_request, ingest_core, horg, hact, Bool.not_true,
      Bool.false_eq_true, if_false, hrp, if_true]
    show ((upsertDevice (insertNonce (gcNonces st seen) req seen
      (seen + window)) req seen).events ++ req.events.map (eventToRow req)) = _
    rw [upsertDevice_events]
    rfl
  · simp only [ingest_request, ingest_core, horg, hact, Bool.not_true,
      Bool.false_eq_true, if_false, hrp, if_true]
    have hfind := upsertDevice_devices_of_find
      (insertNonce (gcNonces st seen) req seen (seen + window)) req seen
    show ∃ d ∈ (upsertDevice (insertNonce (gcNonces st seen) req seen
      (seen + window)) req seen).devices, deviceMatches req d = true
    cases hf : (insertNonce (gcNonces st seen) req seen (seen + window)).devices.find?
        (deviceMatches req) with
    | none =>
        rw [hf] at hfind
        exact ⟨_, List.mem_of_find?_eq_some hfind, List.find?_some hfind⟩
    | some d =>
        rw [hf] at hfind
        exact ⟨_, List.mem_of_find?_eq_some hfind, List.find?_some hfind⟩

/-- Claim C8 as amended: on every accepted ingest the device row's
`last_seen_at` is set from the request's `seen_at`, platform and
agent-version take the latest writer's values, and `first_seen_at` is set
from `seen_at` only when the `(org, device)` row is created; for an
existing row `first_seen_at` is left unchanged. -/
theorem c8_device_refresh_amended (st : DbState) (req : IngestReq) (org : OrgRow)
    (seen window : Int)
    (horg : findOrg st req.org_id = some org) (hact : org.is_active = true)
    (hfresh : ∀ n ∈ st.nonces, nonceMatches req n = true → n.expires_at < seen) :
    ((ingest_request false req seen window st).2).devices.find? (deviceMatches req) =
      (match st.devices.find? (deviceMatches req) with
       | none => some { org_id := req.org_id, device_id := req.device_id,
                        platform := inferredPlatform req,
                        agent_version := req.agent_version,
                        first_seen_at := seen, last_seen_at := seen }
       | some d => some { d with platform := inferredPlatform req,
                                 agent_version := req.agent_version,
                                 last_seen_at := seen }) := by
  have hrp := replayPresent_gc_of_fresh st req seen hfresh
  simp only [ingest_request, ingest_core, horg, hact, Bool.not_true,
    Bool.false_eq_true, if_false, hrp, if_true]
  show (upsertDevice (insertNonce (gcNonces st seen) req seen
    (seen + window)) req seen).devices.find? (deviceMatches req) = _
  rw [upsertDevice_devices_of_find]
  rfl

/-- Claim C8, counterexample to the claim as stated: an accepted ingest at
`seen_at = 100` against an existing device row with `first_seen_at = 0`
leaves `first_seen_at = 0`; it is not refreshed to the request's seen-at
time. -/
theorem c8_counterexample :
    (ingest_request false exReq 100 300 exStWithDevice).1 = .ok 1 ∧
    ((ingest_request false exReq 100 300 exStWithDevice).2).devices =
      [{ org_id := "o", device_id := "d", platform := "macos",
         agent_version := "1.0.0", first_seen_at := 0, last_seen_at := 100 }] ∧
    (0 : Int) ≠ 100 := by decide

theorem c8_witness :
    ((ingest_request false exReq 100 300 exStWithDevice).2).devices.find?
        (deviceMatches exReq) =
      (match exStWithDevice.devices.find? (deviceMatches exReq) with
       | none => some { org_id := exReq.org_id, device_id := exReq.device_id,
                        platform := inferredPlatform exReq,
                        agent_version := exReq.agent_version,
                        first_seen_at := 100, last_seen_at := 100 }
       | some d => some { d with platform := inferredPlatform exReq,
                                 agent_version := exReq.agent_version,
                                 last_seen_at := 100 }) :=
  c8_device_refresh_amended exStWithDevice exReq exOrg 100 300 (by rfl) (by rfl)
    (by intro n hn _; simp [exStWithDevice] at hn)

theorem c2_witness :
    (ingest_request false exReq 100 300 exStWithNonce).1 = .ok 0 ∧
    ingest_status 0 = 409 ∧
    ((ingest_request false exReq 100 300 exStWithNonce).2).events
      = exStWithNonce.events := by
  have h := (c2_replay_protection exStWithNonce exReq exOrg 100 300
      (by rfl) (by rfl)).1 exNonceRow (by simp [exStWithNonce]) (by rfl) (by decide)
  exact ⟨h.1, h.2.1, h.2.2.1⟩

theorem c3_witness :
    ingest_request true exReq 100 300 exStEmpty = (.error (), exStEmpty) ∧
    (ingest_request false exReq 100 300 exStEmpty).1 = .ok 1 := by
  have h := c3_ingest_atomicity exStEmpty exReq exOrg 100 300 (by rfl) (by rfl)
    (by intro n hn _; simp [exStEmpty] at hn)
  exact ⟨h.1, h.2.1⟩

/-- Claim C9, exponential backoff: the delay applied by `mark_failed` for
retry count `r` equals `min(300, max(2, 2^r))` seconds; over `r ∈ [0..8]`
the delay is non-decreasing and at most 300 seconds, and `mark_failed` sets
the matching row's `next_attempt_at` to `now` plus that delay while
incrementing its stored retry count by exactly one. -/
theorem c9_backoff (rows : List SpoolRow) (id r : Nat) (now : Int) :
    backoff_seconds r = min 300 (max 2 (2 ^ r)) ∧
    (∀ r1 r2, r1 ≤ r2 → r2 ≤ 8 → backoff_seconds r1 ≤ backoff_seconds r2) ∧
    (r ≤ 8 → backoff_seconds r ≤ 300) ∧
    (∀ row ∈ rows, row.batch_id = id →
      { row with retry_count := row.retry_count + 1,
                 next_attempt_at := now + (backoff_seconds r : Int) }
        ∈ mark_failed rows id r now) := by
  refine ⟨rfl, fun r1 r2 h _ => backoff_monotone h, fun _ => backoff_le_300 r, ?_⟩
  intro row hmem hid
  unfold mark_failed
  refine List.mem_map.2 ⟨row, hmem, ?_⟩
  simp [hid]

theorem c9_witness :
    ({ batch_id := 7, created_at := 0, retry_count := 4,
       next_attempt_at := 5 + (backoff_seconds 3 : Int) } : SpoolRow)
      ∈ mark_failed [(⟨7, 0, 3, 0⟩ : SpoolRow)] 7 3 5 :=
  (c9_backoff [(⟨7, 0, 3, 0⟩ : SpoolRow)] 7 3 5).2.2.2 ⟨7, 0, 3, 0⟩ (by simp) rfl

/-- Claim C4, risk score formula and range: for every non-empty event list
the bundle's risk score equals
`min(100, round(100 * raw_today / max(30, max_30d)))` where `max_30d` is
the maximum daily raw weighted sum over the up-to-30 prior days present and
the target day itself, and the score is an integer in `[0, 100]`. -/
theorem c4_risk_score (events : List REvent) (_h : events ≠ []) :
    risk_score events = risk_score_spec events ∧
    0 ≤ risk_score events ∧ risk_score events ≤ 100 :=
  ⟨risk_score_eq_spec events, (risk_score_range events).1, (risk_score_range events).2⟩

theorem c4_witness :
    (([⟨0, .INFO⟩] : List REvent) ≠ []) ∧
    (risk_score [⟨0, .INFO⟩] = risk_score_spec [⟨0, .INFO⟩] ∧
     0 ≤ risk_score [⟨0, .INFO⟩] ∧ risk_score [⟨0, .INFO⟩] ≤ 100) :=
  ⟨by simp, c4_risk_score [⟨0, .INFO⟩] (by simp)⟩

/-- Claim C5, baseline classification: for each signal the baseline is the
median of the prior-day history, the ratio is `today / max(1, baseline)`,
and the classification is normal iff `ratio < 1.5`, elevated iff
`1.5 ≤ ratio < 3`, anomalous iff `ratio ≥ 3`; in particular ratio 1.49 is
normal, 1.5 elevated, 2.99 elevated and 3.0 anomalous. -/
theorem c5_baseline_classification :
    (∀ (today : ℤ) (history : List ℤ),
      (compute_baseline_metric today history).baseline
          = compute_median (history.map (fun n => (n : ℚ))) ∧
      ((compute_baseline_metric today history).classification
          = .normal ↔
        (today : ℚ) / max 1 (compute_median (history.map (fun n => (n : ℚ)))) < 3/2) ∧
      ((compute_baseline_metric today history).classification
          = .elevated ↔
        (3/2 ≤ (today : ℚ) / max 1 (compute_median (history.map (fun n => (n : ℚ)))) ∧
         (today : ℚ) / max 1 (compute_median (history.map (fun n => (n : ℚ)))) < 3)) ∧
      ((compute_baseline_metric today history).classification
          = .anomalous ↔
        3 ≤ (today : ℚ) / max 1 (compute_median (history.map (fun n => (n : ℚ)))))) ∧
    classify_ratio (149/100) = .normal ∧
    classify_ratio (3/2) = .elevated ∧
    classify_ratio (299/100) = .elevated ∧
    classify_ratio 3 = .anomalous := by
  refine ⟨?_, ?_, ?_, ?_, ?_⟩
  · intro today history
    refine ⟨rfl, ?_, ?_, ?_⟩ <;>
      · simp only [compute_baseline_metric, classify_ratio]
        split_ifs with h1 h2 <;> simp_all <;> linarith
  · unfold classify_ratio; norm_num
  · unfold classify_ratio; norm_num
  · unfold classify_ratio; norm_num
  · unfold classify_ratio; norm_num

/-- Claim C1 as amended: signing then verifying the same body succeeds for
every JSON body value and api key.  A single-bit mutation of the signature
header never verifies, but how it fails depends on the bit: flipping one of
bits 0-6 of a signature character keeps the string ASCII and verification
returns false, while flipping bit 7 makes the character non-ASCII and the
`hmac.compare_digest` call raises `TypeError` instead of returning.  A
single-bit mutation of the body bytes falsifies verification only when it
changes the parsed JSON value — verification recomputes the HMAC over the
canonical re-encoding of the parsed body, so two byte bodies with the same
parse always verify identically. -/
theorem c1_signature_roundtrip_amended :
    (∀ (v : JVal) (k org dev : String) (ts : Int) (nonce : String),
      nonce ≠ "" →
      verify_request v (build_signed_headers v k org dev ts nonce) k = .ok true) ∧
    (∀ (v : JVal) (k org dev : String) (ts : Int) (nonce : String) (i bit : Nat),
      nonce ≠ "" → i < 64 → bit < 7 →
      verify_request v
        { build_signed_headers v k org dev ts nonce with
          signature := flipBitStr (sign_request v k) i bit } k = .ok false) ∧
    (∀ (v : JVal) (k org dev : String) (ts : Int) (nonce : String) (i : Nat),
      nonce ≠ "" → i < 64 →
      verify_request v
        { build_signed_headers v k org dev ts nonce with
          signature := flipBitStr (sign_request v k) i 7 } k
        = .error .typeError) ∧
    (∀ (b1 b2 : List Nat) (headers : SignedHeaders) (k : String),
      body_payload_bytes b1 = body_payload_bytes b2 →
      verify_request_bytes b1 headers k = verify_request_bytes b2 headers k) := by
  refine ⟨?_, ?_, ?_, ?_⟩
  · intro v k org dev ts nonce hnonce
    simp only [verify_request, build_signed_headers]
    rw [if_neg (sign_request_ne_empty v k), if_neg (intToDecString_ne_empty ts),
      if_neg hnonce]
    unfold compare_digest
    rw [if_pos ⟨sign_request_isAscii v k, sign_request_isAscii v k⟩]
    simp
  · intro v k org dev ts nonce i bit hnonce hi hbit
    simp only [verify_request, build_signed_headers]
    rw [if_neg (flipBitStr_sig_ne_empty v k i bit),
      if_neg (intToDecString_ne_empty ts), if_neg hnonce]
    unfold compare_digest
    rw [if_pos ⟨flipBitStr_sig_isAscii v k i bit hbit, sign_request_isAscii v k⟩]
    have hne := flipBitStr_sig_ne v k i bit hi (by omega)
    simp [hne]
  · intro v k org dev ts nonce i hnonce hi
    simp only [verify_request, build_signed_headers]
    rw [if_neg (flipBitStr_sig_ne_empty v k i 7),
      if_neg (intToDecString_ne_empty ts), if_neg hnonce]
    unfold compare_digest
    rw [if_neg]
    intro hand
    have hfalse := flipBitStr_sig_bit7_not_ascii v k i hi
    rw [hand.1] at hfalse
    simp at hfalse
  · intro b1 b2 headers k hparse
    simp only [verify_request_bytes, sign_request_bytes, hparse]

/-- Claim C1, counterexample to the claim as stated: flipping bit 5 of byte
7 of the canonical body `["J"]` yields `["J"]`, a different byte
string that parses to the same JSON value, so verification of the mutated
body against the original signature still returns true. -/
theorem c1_counterexample :
    c1BodyFlipped = flipByteAt c1Body 7 5 ∧
    c1BodyFlipped ≠ c1Body ∧
    body_payload_bytes c1Body = .ok (.arr [.s "J"]) ∧
    body_payload_bytes c1BodyFlipped = .ok (.arr [.s "J"]) ∧
    verify_request_bytes c1BodyFlipped
      ((build_signed_headers_bytes c1Body "secret-key" "o" "d" 1700000000
        "0123456789abcdef0123456789abcdef").toOption.getD default)
      "secret-key" = .ok true := by
  have h1 : body_payload_bytes c1Body = .ok (.arr [.s "J"]) := by rfl
  have h2 : body_payload_bytes c1BodyFlipped = .ok (.arr [.s "J"]) := by rfl
  refine ⟨by decide, by decide, h1, h2, ?_⟩
  have hb : (build_signed_headers_bytes c1Body "secret-key" "o" "d" 1700000000
      "0123456789abcdef0123456789abcdef").toOption.getD default =
      { org := "o", device := "d", timestamp := intToDecString 1700000000,
        nonce := "0123456789abcdef0123456789abcdef",
        signature := sign_request (.arr [.s "J"]) "secret-key" } := by
    simp only [build_signed_headers_bytes, sign_request_bytes, h1]
    rfl
  rw [hb]
  have hn : ("0123456789abcdef0123456789abcdef" : String) ≠ "" := by decide
  simp only [verify_request_bytes, sign_request_bytes, h2]
  rw [if_neg (sign_request_ne_empty _ _), if_neg (intToDecString_ne_empty _),
    if_neg hn]
  unfold compare_digest
  rw [if_pos ⟨sign_request_isAscii _ _, sign_request_isAscii _ _⟩]
  simp

theorem c1_witness :
    (("0123456789abcdef0123456789abcdef" : String) ≠ "") ∧
    verify_request (.arr [.s "J"])
      (build_signed_headers (.arr [.s "J"]) "secret-key" "o" "d" 1700000000
        "0123456789abcdef0123456789abcdef") "secret-key" = .ok true :=
  ⟨by decide, c1_signature_roundtrip_amended.1 (.arr [.s "J"]) "secret-key" "o" "d"
    1700000000 "0123456789abcdef0123456789abcdef" (by decide)⟩

/-- Claim C6 as amended: two evidence dictionaries that agree on every key
of the stable allowlist produce the same fingerprint for any source and
title, provided at least one allowlist key is present; without that proviso
the fallback hashes the full primitive subset of the evidence, so evidence
differing only in non-allowlist keys can produce different fingerprints. -/
theorem c6_fingerprint_invariance_amended (source title : String)
    (e1 e2 : List (String × JVal))
    (hagree : ∀ k ∈ STABLE_EVIDENCE_KEYS, evLookup e1 k = evLookup e2 k)
    (hsome : ∃ k ∈ STABLE_EVIDENCE_KEYS, (evLookup e1 k).isSome = true) :
    build_fingerprint source title e1 = build_fingerprint source title e2 := by
  have hst : stableEvidence e1 = stableEvidence e2 := by
    unfold stableEvidence
    exact List.filterMap_congr (fun k hk => by rw [hagree k hk])
  have hne : stableEvidence e1 ≠ [] := by
    obtain ⟨k, hk, hs⟩ := hsome
    obtain ⟨v, hv⟩ := Option.isSome_iff_exists.1 hs
    have hmem : (k, v) ∈ stableEvidence e1 :=
      List.mem_filterMap.2 ⟨k, hk, by rw [hv]; rfl⟩
    exact List.ne_nil_of_mem hmem
  rw [hst] at hne
  unfold build_fingerprint fingerprintPayload fingerprintStable
  rw [hst, if_neg hne, if_neg hne]

/-- Claim C6, counterexample to the claim as stated: two evidence
dictionaries with no allowlist key at all agree (vacuously) on every
allowlist key and differ only in the non-allowlist key `observed_at`, yet
their fingerprints differ because of the primitive-subset fallback. -/
theorem c6_counterexample :
    (∀ k ∈ STABLE_EVIDENCE_KEYS,
      evLookup [("observed_at", .i 1)] k = evLookup [("observed_at", .i 2)] k) ∧
    build_fingerprint "process" "demo title" [("observed_at", .i 1)]
      ≠ build_fingerprint "process" "demo title" [("observed_at", .i 2)] := by
  constructor
  · decide
  · decide

theorem c6_witness :
    build_fingerprint "network" "listener up"
        [("ip", .s "0.0.0.0"), ("observed_at", .i 1)]
      = build_fingerprint "network" "listener up"
        [("ip", .s "0.0.0.0"), ("observed_at", .i 2)] :=
  c6_fingerprint_invariance_amended "network" "listener up"
    [("ip", .s "0.0.0.0"), ("observed_at", .i 1)]
    [("ip", .s "0.0.0.0"), ("observed_at", .i 2)]
    (by decide) (by decide)

/-- Claim C7, batch split respects bounds: with `max_events ≥ 1`, every
batch emitted by `split_batches` holds at most `max_events` envelopes and
its canonical ingest-request body is within the byte bound, except that a
batch may be a single event whose request body alone exceeds the bound;
batches concatenate back to the input, so they are emitted in input
order. -/
theorem c7_batch_bounds (org_id device_id agent_version sent_at : String)
    (maxEvents maxBytes : Nat) (events : List EventEnvelope)
    (hmax : 1 ≤ maxEvents) :
    (∀ batch ∈ split_batches org_id device_id agent_version sent_at
        maxEvents maxBytes events,
      batch.length ≤ maxEvents ∧
      (request_size_for org_id device_id agent_version sent_at batch ≤ maxBytes ∨
       batch.length = 1)) ∧
    (split_batches org_id device_id agent_version sent_at
        maxEvents maxBytes events).flatten = events := by
  constructor
  · exact split_gen_bounds _ maxEvents maxBytes hmax events
  · exact split_gen_flatten _ maxEvents maxBytes events

theorem c7_witness :
    1 ≤ 1 ∧
    ((∀ batch ∈ split_batches "o" "d" "1.0.0" "2026-10-01T00:00:00+00:00"
        1 100000 [exEnvA, exEnvB],
      batch.length ≤ 1 ∧
      (request_size_for "o" "d" "1.0.0" "2026-10-01T00:00:00+00:00" batch ≤ 100000 ∨
       batch.length = 1)) ∧
    (split_batches "o" "d" "1.0.0" "2026-10-01T00:00:00+00:00"
        1 100000 [exEnvA, exEnvB]).flatten = [exEnvA, exEnvB]) :=
  ⟨le_refl 1, c7_batch_bounds "o" "d" "1.0.0" "2026-10-01T00:00:00+00:00"
    1 100000 [exEnvA, exEnvB] (by decide)⟩

/-- Claim C10, batch split is a partition: concatenating the batches
returned by `split_batches` in order yields exactly the input event list —
nothing dropped, nothing duplicated, order preserved within and across
batches — for every event list and every bound. -/
theorem c10_batch_partition (org_id device_id agent_version sent_at : String)
    (maxEvents maxBytes : Nat) (events : List EventEnvelope) :
    (split_batches org_id device_id agent_version sent_at
        maxEvents maxBytes events).flatten = events :=
  split_gen_flatten _ maxEvents maxBytes events

end Sec44
